import Mathlib

/-!
Verification of the config synchronization manager of `space-cloud`
(files `utils/syncman/operations.go` and `sc/config/store.go`) against its
natural-language specification.

The Go code is shallowly embedded: external collaborators (the raft client,
the HTTP transport, the JSON marshaller of the standard library and the
admin validator) are modelled as an explicit environment record, and each
operation returns, besides its Go return value, the ordered trace of effect
calls (forward requests, `Apply` submissions, validator consultations) it
issued, together with the configuration document it leaves behind.
-/

/-- A Go `error` value is identified with its message string. -/
def GoError := String
deriving DecidableEq, Repr

/-- Result of a Go function returning `error`; `panicked` marks a runtime
panic (e.g. a failed type assertion). -/
inductive GoResult
  | ok
  | err (e : GoError)
  | panicked
deriving DecidableEq, Repr

/-- Modelled from the spec: a project entry of the configuration document
(`config.Project`, declared outside `src/`); it carries the identifier the
sync manager reads (`project.ID`) and an opaque payload standing for the
remaining fields. -/
structure Project where
  id : String
  val : Nat
deriving DecidableEq, Repr

/-- Modelled from the spec: the static-routing section (`config.Static`,
declared outside `src/`), opaque to the sync manager. -/
structure Static where
  val : Nat
deriving DecidableEq, Repr

/-- Modelled from the spec: the operation-mode section
(`config.OperationConfig`, declared outside `src/`), opaque to the sync
manager. -/
structure OperationConfig where
  val : Nat
deriving DecidableEq, Repr

/-- Modelled from the spec: the deployment section (`config.Deploy`,
declared outside `src/`), opaque to the sync manager. -/
structure Deploy where
  val : Nat
deriving DecidableEq, Repr

/-- Modelled from the spec: the full configuration document
(`config.Config`, declared outside `src/`): an ordered collection of
projects plus the static, deploy and operation sections. -/
structure Config where
  projects : List Project
  static : Static
  deploy : Deploy
  operation : OperationConfig
deriving DecidableEq, Repr

/-- Modelled from the spec: the `Kind` tag of a `model.RaftCommand`
(the `utils.RaftCommand*` string constants, declared outside `src/`). -/
inductive RaftCommandKind
  | setStatic
  | addInternalRouteOperation
  | setOperation
  | set
  | setDeploy
  | delete
deriving DecidableEq, Repr

/-- Modelled from the spec: `model.RaftCommand` (declared outside `src/`),
a struct with a `Kind` tag and one optional payload field per kind, plus a
project identifier used by set-project and delete commands. -/
structure RaftCommand where
  kind : RaftCommandKind
  project : Option Project := none
  static : Option Static := none
  operation : Option OperationConfig := none
  deploy : Option Deploy := none
  id : String := ""
deriving DecidableEq, Repr

/-- Byte strings exchanged with the log engine and the HTTP transport,
modelled as the values they deterministically encode; `nil` is Go's nil
byte slice, returned by `json.Marshal` alongside an error. -/
inductive Bytes
  | nil
  | ofStatic (s : Static)
  | ofOperation (o : OperationConfig)
  | ofProject (p : Project)
  | ofDeploy (d : Deploy)
  | ofCommand (c : RaftCommand)
deriving DecidableEq, Repr

/-- A JSON value, as decoded by `json.NewDecoder(...).Decode` into a
`map[string]interface` entry. -/
inductive JVal
  | str (s : String)
  | num (n : Int)
  | boolean (b : Bool)
  | nul
deriving DecidableEq, Repr

/-- Behaviour of the HTTP exchange a single `makeRequest` call performs:
the possible transport-level errors and, when the exchange succeeds, the
response status and decoded JSON body. -/
structure HttpEnv where
  newRequestErr : Option GoError := none
  doErr : Option GoError := none
  decodeErr : Option GoError := none
  status : Nat := 200
  body : List (String × JVal) := []

/-- The HTTP request `makeRequest` fires: method, target URL, the
`Authorization` header it adds, and the body buffer. -/
structure HttpRequest where
  method : String
  url : String
  authHeader : String
  body : Option Bytes
deriving DecidableEq, Repr

/-- Embeds `makeRequest` of `operations.go`: build the request (adding the
bearer-token header), fire it, decode the JSON response body into a map,
and on a non-200 status return an error built from the body's `error`
field via an unchecked type assertion — which panics when the field is
absent or not a string. Returns the list of requests actually fired and
the Go result. -/
def makeRequest (env : HttpEnv) (method token url : String) (data : Option Bytes) :
    List HttpRequest × GoResult :=
  match env.newRequestErr with
  | some e => ([], GoResult.err e)
  | none =>
    let req : HttpRequest :=
      { method := method, url := url, authHeader := "Bearer " ++ token, body := data }
    match env.doErr with
    | some e => ([req], GoResult.err e)
    | none =>
      match env.decodeErr with
      | some e => ([req], GoResult.err e)
      | none =>
        if env.status ≠ 200 then
          match env.body.lookup "error" with
          | some (JVal.str s) => ([req], GoResult.err s)
          | _ => ([req], GoResult.panicked)
        else ([req], GoResult.ok)

/-- Models Go's `strings.Split(addr, ":")[0]`: the prefix of the address
before the first colon (the whole string when no colon occurs). -/
def hostOf (addr : String) : String :=
  (addr.data.takeWhile (fun c => c != ':')).asString

/-- Models the standard library's `json.Marshal` applied to a
`RaftCommand`: serialization is the deterministic injection into `Bytes`,
and the environment says whether the call errors (in Go it returns a nil
slice together with the error in that case). -/
def jsonMarshalCmd (mErr : RaftCommand → Option GoError) (c : RaftCommand) :
    Bytes × Option GoError :=
  match mErr c with
  | none => (Bytes.ofCommand c, none)
  | some e => (Bytes.nil, some e)

/-- Converts the `error` return of a Go call (`Apply(...).Error()`) into a
`GoResult`. -/
def goResultOf : Option GoError → GoResult
  | none => GoResult.ok
  | some e => GoResult.err e

/-- One effect call issued by a sync-manager operation, in program order:
a `makeRequest` forward actually fired, an `Apply(data, timeout)`
submission to the raft log, or an admin-validator consultation. -/
inductive Event
  | forward (r : HttpRequest)
  | apply (data : Bytes) (timeout : Nat)
  | validate (current : Config) (proposed : Project)
deriving DecidableEq, Repr

/-- The environment a sync-manager operation runs against: the raft
client's answers (`VerifyLeader().Error()`, `Leader()`, the error of the
one `Apply` call), the HTTP transport, the marshaller behaviour and the
admin validator. -/
structure Env where
  raftVerifyLeaderErr : Option GoError
  raftLeader : String
  raftApplyErr : Option GoError
  http : HttpEnv
  marshalCmdErr : RaftCommand → Option GoError := fun _ => none
  validate : Config → Project → Bool := fun _ _ => true

/-- The sync manager's lock-protected state: the in-memory configuration
document (`s.projectConfig`). -/
structure SyncManager where
  projectConfig : Config
deriving DecidableEq, Repr

/-- What one operation call did: its ordered effect trace, the document it
leaves in the manager, and its Go return value. -/
structure OpOutcome where
  events : List Event
  newConfig : Config
  ret : GoResult
deriving DecidableEq, Repr

/-- Embeds `SyncManager.SetStaticConfig` of `operations.go`. -/
def SyncManager.setStaticConfig (env : Env) (s : SyncManager) (token : String)
    (static : Static) : OpOutcome :=
  if env.raftVerifyLeaderErr.isSome then
    let data := Bytes.ofStatic static
    let addr := hostOf env.raftLeader
    let mr := makeRequest env.http "POST" token
      ("http://" ++ addr ++ ":4122/v1/api/config/static") (some data)
    { events := mr.1.map Event.forward, newConfig := s.projectConfig, ret := mr.2 }
  else
    let c : RaftCommand := { kind := RaftCommandKind.setStatic, static := some static }
    let m := jsonMarshalCmd env.marshalCmdErr c
    { events := [Event.apply m.1 0], newConfig := s.projectConfig,
      ret := goResultOf env.raftApplyErr }

/-- Embeds `SyncManager.AddInternalRoutes` of `operations.go`. -/
def SyncManager.addInternalRoutes (env : Env) (s : SyncManager) (token : String)
    (static : Static) : OpOutcome :=
  if env.raftVerifyLeaderErr.isSome then
    let data := Bytes.ofStatic static
    let addr := hostOf env.raftLeader
    let mr := makeRequest env.http "POST" token
      ("http://" ++ addr ++ ":4122/v1/api/config/static/internal") (some data)
    { events := mr.1.map Event.forward, newConfig := s.projectConfig, ret := mr.2 }
  else
    let c : RaftCommand :=
      { kind := RaftCommandKind.addInternalRouteOperation, static := some static }
    let m := jsonMarshalCmd env.marshalCmdErr c
    { events := [Event.apply m.1 0], newConfig := s.projectConfig,
      ret := goResultOf env.raftApplyErr }

/-- Embeds `SyncManager.SetOperationModeConfig` of `operations.go`. -/
def SyncManager.setOperationModeConfig (env : Env) (s : SyncManager) (token : String)
    (op : OperationConfig) : OpOutcome :=
  if env.raftVerifyLeaderErr.isSome then
    let data := Bytes.ofOperation op
    let addr := hostOf env.raftLeader
    let mr := makeRequest env.http "POST" token
      ("http://" ++ addr ++ ":4122/v1/api/config/operation") (some data)
    { events := mr.1.map Event.forward, newConfig := s.projectConfig, ret := mr.2 }
  else
    let c : RaftCommand := { kind := RaftCommandKind.setOperation, operation := some op }
    let m := jsonMarshalCmd env.marshalCmdErr c
    { events := [Event.apply m.1 0], newConfig := s.projectConfig,
      ret := goResultOf env.raftApplyErr }

/-- Embeds `SyncManager.SetProjectConfig` of `operations.go`: the only
operation that consults the admin validator and the only one that checks
the marshal error. -/
def SyncManager.setProjectConfig (env : Env) (s : SyncManager) (token : String)
    (project : Project) : OpOutcome :=
  if env.raftVerifyLeaderErr.isSome then
    let data := Bytes.ofProject project
    let addr := hostOf env.raftLeader
    let mr := makeRequest env.http "POST" token
      ("http://" ++ addr ++ ":4122/v1/api/config/projects") (some data)
    { events := mr.1.map Event.forward, newConfig := s.projectConfig, ret := mr.2 }
  else
    if ! env.validate s.projectConfig project then
      { events := [Event.validate s.projectConfig project],
        newConfig := s.projectConfig,
        ret := GoResult.err "Please upgrade your instance" }
    else
      let c : RaftCommand :=
        { kind := RaftCommandKind.set, project := some project, id := project.id }
      match jsonMarshalCmd env.marshalCmdErr c with
      | (_, some e) =>
        { events := [Event.validate s.projectConfig project],
          newConfig := s.projectConfig, ret := GoResult.err e }
      | (data, none) =>
        { events := [Event.validate s.projectConfig project, Event.apply data 0],
          newConfig := s.projectConfig, ret := goResultOf env.raftApplyErr }

/-- Embeds `SyncManager.SetDeployConfig` of `operations.go`. -/
def SyncManager.setDeployConfig (env : Env) (s : SyncManager) (token : String)
    (deploy : Deploy) : OpOutcome :=
  if env.raftVerifyLeaderErr.isSome then
    let data := Bytes.ofDeploy deploy
    let addr := hostOf env.raftLeader
    let mr := makeRequest env.http "POST" token
      ("http://" ++ addr ++ ":4122/v1/api/config/deploy") (some data)
    { events := mr.1.map Event.forward, newConfig := s.projectConfig, ret := mr.2 }
  else
    let c : RaftCommand := { kind := RaftCommandKind.setDeploy, deploy := some deploy }
    let m := jsonMarshalCmd env.marshalCmdErr c
    { events := [Event.apply m.1 0], newConfig := s.projectConfig,
      ret := goResultOf env.raftApplyErr }

/-- Embeds `SyncManager.DeleteConfig` of `operations.go`; the forwarded
request carries a nil body (Go passes `nil` for the buffer). -/
def SyncManager.deleteConfig (env : Env) (s : SyncManager) (token projectID : String) :
    OpOutcome :=
  if env.raftVerifyLeaderErr.isSome then
    let addr := hostOf env.raftLeader
    let mr := makeRequest env.http "DELETE" token
      ("http://" ++ addr ++ ":4122/v1/api/config/" ++ projectID) none
    { events := mr.1.map Event.forward, newConfig := s.projectConfig, ret := mr.2 }
  else
    let c : RaftCommand := { kind := RaftCommandKind.delete, id := projectID }
    let m := jsonMarshalCmd env.marshalCmdErr c
    { events := [Event.apply m.1 0], newConfig := s.projectConfig,
      ret := goResultOf env.raftApplyErr }

/-- Embeds `SyncManager.GetConfig` of `operations.go`: scan the in-memory
document's project list for the first entry whose identifier equals the
requested one. -/
def SyncManager.getConfig (s : SyncManager) (projectID : String) :
    Except GoError Project :=
  match s.projectConfig.projects.find? (fun p => projectID == p.id) with
  | some p => Except.ok p
  | none => Except.error "Given project is not present in state"

/-- A JSON object rendering of one project entry: its `id` field and the
opaque rest. -/
structure JProj where
  jid : String
  jval : Nat
deriving DecidableEq, Repr

/-- Modelled from the spec: the JSON byte encoding `StoreConfigToFile`
selects for `.json` paths (`encoding/json`'s `Marshal` on `config.Config`,
outside `src/`), rendered as the JSON document tree of the configuration
document. -/
inductive JDoc
  | jstr (s : String)
  | jnum (n : Nat)
  | jdoc (projects : List JProj) (st de op : Nat)
deriving DecidableEq, Repr

/-- JSON encoding of one project entry. -/
def encodeProjectJson (p : Project) : JProj :=
  { jid := p.id, jval := p.val }

/-- Modelled from the spec: serialize the full document to the JSON tree
(`json.Marshal` route of `StoreConfigToFile`). -/
def encodeJson (c : Config) : JDoc :=
  JDoc.jdoc (c.projects.map encodeProjectJson)
    c.static.val c.deploy.val c.operation.val

/-- Decode one project entry from its JSON object rendering. -/
def decodeProjectJson (j : JProj) : Project :=
  { id := j.jid, val := j.jval }

/-- Modelled from the spec: deserialize a configuration document from its
JSON tree. -/
def decodeJson : JDoc → Option Config
  | JDoc.jdoc ds st de op =>
    some { projects := ds.map decodeProjectJson, static := { val := st },
           deploy := { val := de }, operation := { val := op } }
  | _ => none

/-- Modelled from the spec: the YAML byte encoding `StoreConfigToFile`
selects for `.yaml` paths (`ghodss/yaml`'s `Marshal`, outside `src/`),
rendered as a flat token stream: scalar fields first, then a length-headed
run of project entries. -/
inductive YTok
  | ystr (s : String)
  | ynum (n : Nat)
deriving DecidableEq, Repr

/-- YAML token run for the project list. -/
def encodeProjectsYaml : List Project → List YTok
  | [] => []
  | p :: ps => YTok.ystr p.id :: YTok.ynum p.val :: encodeProjectsYaml ps

/-- Modelled from the spec: serialize the full document to the YAML token
stream (`yaml.Marshal` route of `StoreConfigToFile`). -/
def encodeYaml (c : Config) : List YTok :=
  YTok.ynum c.static.val :: YTok.ynum c.deploy.val :: YTok.ynum c.operation.val ::
    YTok.ynum c.projects.length :: encodeProjectsYaml c.projects

/-- Read `n` project entries off the front of a YAML token stream. -/
def decodeProjectsYaml : Nat → List YTok → Option (List Project × List YTok)
  | 0, rest => some ([], rest)
  | n + 1, YTok.ystr id :: YTok.ynum v :: rest =>
    match decodeProjectsYaml n rest with
    | some (ps, rest2) => some ({ id := id, val := v } :: ps, rest2)
    | none => none
  | _ + 1, _ => none

/-- Modelled from the spec: deserialize a configuration document from the
YAML token stream, requiring the stream to be consumed exactly. -/
def decodeYaml : List YTok → Option Config
  | YTok.ynum st :: YTok.ynum de :: YTok.ynum op :: YTok.ynum n :: rest =>
    match decodeProjectsYaml n rest with
    | some (ps, []) =>
      some { projects := ps, static := { val := st }, deploy := { val := de },
             operation := { val := op } }
    | _ => none
  | _ => none

/-- The serialized form `StoreConfigToFile` writes: YAML or JSON bytes of
the document. -/
inductive SerializedConfig
  | yamlBytes (toks : List YTok)
  | jsonBytes (d : JDoc)
deriving DecidableEq, Repr

/-- Behaviour of the external calls `StoreConfigToFile` makes: whether
`yaml.Marshal` / `json.Marshal` error on this document, and whether
`ioutil.WriteFile` errors. -/
structure StoreEnv where
  yamlMarshalErr : Option GoError := none
  jsonMarshalErr : Option GoError := none
  writeErr : Option GoError := none

/-- What a `StoreConfigToFile` call did: the files written (path, bytes,
permission bits) and the Go return value. -/
structure StoreOutcome where
  written : List (String × SerializedConfig × Nat)
  ret : GoResult
deriving DecidableEq, Repr

/-- Models Go's `strings.HasSuffix` on the character sequence of the
string. -/
def goHasSuffix (s suff : String) : Bool :=
  suff.data.isSuffixOf s.data

/-- Embeds `StoreConfigToFile` of `store.go`: pick the encoding by the
path's suffix (`.yaml` checked first, then `.json`), reject any other
suffix with a logged descriptive error naming the path, propagate marshal
errors, then write the whole buffer with permission `0644`. -/
def storeConfigToFile (env : StoreEnv) (conf : Config) (path : String) : StoreOutcome :=
  if goHasSuffix path ".yaml" then
    match env.yamlMarshalErr with
    | some e => { written := [], ret := GoResult.err e }
    | none =>
      match env.writeErr with
      | some e =>
        { written := [(path, SerializedConfig.yamlBytes (encodeYaml conf), 0o644)],
          ret := GoResult.err e }
      | none =>
        { written := [(path, SerializedConfig.yamlBytes (encodeYaml conf), 0o644)],
          ret := GoResult.ok }
  else if goHasSuffix path ".json" then
    match env.jsonMarshalErr with
    | some e => { written := [], ret := GoResult.err e }
    | none =>
      match env.writeErr with
      | some e =>
        { written := [(path, SerializedConfig.jsonBytes (encodeJson conf), 0o644)],
          ret := GoResult.err e }
      | none =>
        { written := [(path, SerializedConfig.jsonBytes (encodeJson conf), 0o644)],
          ret := GoResult.ok }
  else
    { written := [],
      ret := GoResult.err ("Invalid config file type (" ++ path ++ ") provided") }

/-- The outcome shape shared by every not-leader branch in
`operations.go`: the event trace is exactly the requests fired by one
`makeRequest` call, the document is left untouched, and the forward's
result is returned. -/
def forwardOnly (http : HttpEnv) (cfg : Config) (method token url : String)
    (body : Option Bytes) : OpOutcome :=
  { events := (makeRequest http method token url body).1.map Event.forward,
    newConfig := cfg,
    ret := (makeRequest http method token url body).2 }

/-- A sample configuration document for the concrete witnesses. -/
def cfgW : Config :=
  { projects := [{ id := "proj1", val := 1 }], static := { val := 0 },
    deploy := { val := 0 }, operation := { val := 0 } }

/-- A sync manager holding the sample document. -/
def smW : SyncManager := { projectConfig := cfgW }

/-- A not-leader environment: the leadership check errors, the leader
address carries a port suffix, and the forward target answers 404 with an
`error` field in the body. -/
def envNL : Env :=
  { raftVerifyLeaderErr := some "node is not the leader",
    raftLeader := "10.0.0.5:7000",
    raftApplyErr := none,
    http := { status := 404, body := [("error", JVal.str "not found")] } }

/-- A leader environment whose Apply call succeeds. -/
def envL : Env :=
  { raftVerifyLeaderErr := none, raftLeader := "10.0.0.5:7000",
    raftApplyErr := none, http := {} }

/-- Claim C1: for every mutation operation, when the leadership check
reports the node is not leader, the operation makes no Apply call and
leaves the local configuration document unchanged: its entire outcome is
that of a single forward call (to the kind-specific path on the leader
host), whose result it returns. -/
theorem notLeader_forwards_only (env : Env) (s : SyncManager) (token : String)
    (st : Static) (op : OperationConfig) (proj : Project) (dep : Deploy)
    (pid : String) (h : env.raftVerifyLeaderErr.isSome = true) :
    SyncManager.setStaticConfig env s token st =
      forwardOnly env.http s.projectConfig "POST" token
        ("http://" ++ hostOf env.raftLeader ++ ":4122/v1/api/config/static")
        (some (Bytes.ofStatic st)) ∧
    SyncManager.addInternalRoutes env s token st =
      forwardOnly env.http s.projectConfig "POST" token
        ("http://" ++ hostOf env.raftLeader ++ ":4122/v1/api/config/static/internal")
        (some (Bytes.ofStatic st)) ∧
    SyncManager.setOperationModeConfig env s token op =
      forwardOnly env.http s.projectConfig "POST" token
        ("http://" ++ hostOf env.raftLeader ++ ":4122/v1/api/config/operation")
        (some (Bytes.ofOperation op)) ∧
    SyncManager.setProjectConfig env s token proj =
      forwardOnly env.http s.projectConfig "POST" token
        ("http://" ++ hostOf env.raftLeader ++ ":4122/v1/api/config/projects")
        (some (Bytes.ofProject proj)) ∧
    SyncManager.setDeployConfig env s token dep =
      forwardOnly env.http s.projectConfig "POST" token
        ("http://" ++ hostOf env.raftLeader ++ ":4122/v1/api/config/deploy")
        (some (Bytes.ofDeploy dep)) ∧
    SyncManager.deleteConfig env s token pid =
      forwardOnly env.http s.projectConfig "DELETE" token
        ("http://" ++ hostOf env.raftLeader ++ ":4122/v1/api/config/" ++ pid)
        none := by
  refine ⟨?_, ?_, ?_, ?_, ?_, ?_⟩ <;>
    simp [SyncManager.setStaticConfig, SyncManager.addInternalRoutes,
      SyncManager.setOperationModeConfig, SyncManager.setProjectConfig,
      SyncManager.setDeployConfig, SyncManager.deleteConfig, forwardOnly, h]

/-- Concrete witness for claim C1: a not-leader delete only forwards. -/
theorem notLeader_forwards_only_witness :
    envNL.raftVerifyLeaderErr.isSome = true ∧
    SyncManager.deleteConfig envNL smW "tok" "proj1" =
      forwardOnly envNL.http smW.projectConfig "DELETE" "tok"
        ("http://" ++ hostOf envNL.raftLeader ++ ":4122/v1/api/config/" ++ "proj1")
        none :=
  ⟨rfl,
    (notLeader_forwards_only envNL smW "tok" ⟨0⟩ ⟨0⟩ ⟨"p", 0⟩ ⟨0⟩ "proj1"
      rfl).2.2.2.2.2⟩

/-- Claim C2: on a leader (and with the marshaller succeeding, as it does
for these payload types), each mutation operation submits to Apply, with
timeout 0, the serialization of a RaftCommand whose kind matches the
operation and whose payload field is exactly the caller's payload (for the
set-project operation, after the validator accepted); in particular
`setDeployConfig` submits kind `setDeploy` carrying the given deploy and
returns success exactly when Apply succeeds. -/
theorem leader_submits_matching_command (env : Env) (s : SyncManager)
    (token : String) (st : Static) (op : OperationConfig) (proj : Project)
    (dep : Deploy) (pid : String)
    (hl : env.raftVerifyLeaderErr = none)
    (hm : ∀ c, env.marshalCmdErr c = none)
    (hv : env.validate s.projectConfig proj = true) :
    (SyncManager.setStaticConfig env s token st).events =
      [Event.apply (Bytes.ofCommand
        { kind := RaftCommandKind.setStatic, static := some st }) 0] ∧
    (SyncManager.addInternalRoutes env s token st).events =
      [Event.apply (Bytes.ofCommand
        { kind := RaftCommandKind.addInternalRouteOperation, static := some st }) 0] ∧
    (SyncManager.setOperationModeConfig env s token op).events =
      [Event.apply (Bytes.ofCommand
        { kind := RaftCommandKind.setOperation, operation := some op }) 0] ∧
    (SyncManager.setProjectConfig env s token proj).events =
      [Event.validate s.projectConfig proj,
       Event.apply (Bytes.ofCommand
        { kind := RaftCommandKind.set, project := some proj, id := proj.id }) 0] ∧
    (SyncManager.setDeployConfig env s token dep).events =
      [Event.apply (Bytes.ofCommand
        { kind := RaftCommandKind.setDeploy, deploy := some dep }) 0] ∧
    (SyncManager.deleteConfig env s token pid).events =
      [Event.apply (Bytes.ofCommand
        { kind := RaftCommandKind.delete, id := pid }) 0] ∧
    ((SyncManager.setDeployConfig env s token dep).ret = GoResult.ok ↔
      env.raftApplyErr = none) := by
  have hb : env.raftVerifyLeaderErr.isSome = false := by rw [hl]; rfl
  refine ⟨?_, ?_, ?_, ?_, ?_, ?_, ?_⟩ <;>
    simp [SyncManager.setStaticConfig, SyncManager.addInternalRoutes,
      SyncManager.setOperationModeConfig, SyncManager.setProjectConfig,
      SyncManager.setDeployConfig, SyncManager.deleteConfig,
      jsonMarshalCmd, hb, hm, hv]
  cases env.raftApplyErr <;> simp [goResultOf]

/-- Concrete witness for claim C2: a leader `setDeployConfig`. -/
theorem leader_submits_matching_command_witness :
    envL.raftVerifyLeaderErr = none ∧
    (SyncManager.setDeployConfig envL smW "tok" ⟨9⟩).events =
      [Event.apply (Bytes.ofCommand
        { kind := RaftCommandKind.setDeploy, deploy := some ⟨9⟩ }) 0] ∧
    ((SyncManager.setDeployConfig envL smW "tok" ⟨9⟩).ret = GoResult.ok ↔
      envL.raftApplyErr = none) :=
  ⟨rfl,
    (leader_submits_matching_command envL smW "tok" ⟨0⟩ ⟨0⟩ ⟨"p", 0⟩ ⟨9⟩ "proj1"
      rfl (fun _ => rfl) rfl).2.2.2.2.1,
    (leader_submits_matching_command envL smW "tok" ⟨0⟩ ⟨0⟩ ⟨"p", 0⟩ ⟨9⟩ "proj1"
      rfl (fun _ => rfl) rfl).2.2.2.2.2.2⟩

/-- Claim C3: on a leader, `setProjectConfig` consults the admin validator
with the current document and the proposed project before anything else:
its trace starts with the validator consultation, every later event is an
Apply submission; and when the validator rejects, the operation returns
the fixed policy error, performs no Apply, and leaves the document
unchanged. -/
theorem setProjectConfig_validator_gates_apply (env : Env) (s : SyncManager)
    (token : String) (proj : Project) (hl : env.raftVerifyLeaderErr = none) :
    (∃ tail, (SyncManager.setProjectConfig env s token proj).events =
        Event.validate s.projectConfig proj :: tail ∧
      ∀ e ∈ tail, ∃ d t, e = Event.apply d t) ∧
    (env.validate s.projectConfig proj = false →
      SyncManager.setProjectConfig env s token proj =
        { events := [Event.validate s.projectConfig proj],
          newConfig := s.projectConfig,
          ret := GoResult.err "Please upgrade your instance" }) := by
  have hb : env.raftVerifyLeaderErr.isSome = false := by rw [hl]; rfl
  constructor
  · by_cases hv : env.validate s.projectConfig proj
    · cases hmc : env.marshalCmdErr
        { kind := RaftCommandKind.set, project := some proj, id := proj.id } with
      | none =>
        refine ⟨[Event.apply (Bytes.ofCommand
          { kind := RaftCommandKind.set, project := some proj, id := proj.id }) 0],
          ?_, ?_⟩
        · simp [SyncManager.setProjectConfig, hb, hv, jsonMarshalCmd, hmc]
        · intro e he
          simp at he
          exact ⟨_, _, he⟩
      | some e =>
        refine ⟨[], ?_, by simp⟩
        simp [SyncManager.setProjectConfig, hb, hv, jsonMarshalCmd, hmc]
    · refine ⟨[], ?_, by simp⟩
      simp only [Bool.not_eq_true] at hv
      simp [SyncManager.setProjectConfig, hb, hv]
  · intro hv
    simp [SyncManager.setProjectConfig, hb, hv]

/-- A leader environment whose admin validator rejects every proposal. -/
def envRej : Env :=
  { raftVerifyLeaderErr := none, raftLeader := "", raftApplyErr := none,
    http := {}, validate := fun _ _ => false }

/-- Concrete witness for claim C3: a rejected project change. -/
theorem setProjectConfig_validator_gates_apply_witness :
    envRej.raftVerifyLeaderErr = none ∧
    envRej.validate smW.projectConfig { id := "proj1", val := 2 } = false ∧
    SyncManager.setProjectConfig envRej smW "tok" { id := "proj1", val := 2 } =
      { events := [Event.validate smW.projectConfig { id := "proj1", val := 2 }],
        newConfig := smW.projectConfig,
        ret := GoResult.err "Please upgrade your instance" } :=
  ⟨rfl, rfl,
    (setProjectConfig_validator_gates_apply envRej smW "tok"
      { id := "proj1", val := 2 } rfl).2 rfl⟩

/-- Claim C4: on a not-leader node (with request construction succeeding),
`deleteConfig` fires exactly one DELETE request to
`http://H:4122/v1/api/config/` followed by the project identifier, with a
bearer-token `Authorization` header and nil body, where `H` is the leader
address with everything from the first colon on stripped; and when the
response is a 404 whose decoded body maps `error` to the string
`not found`, the returned error message is `not found`. -/
theorem deleteConfig_forward_request_shape (env : Env) (s : SyncManager)
    (token pid : String)
    (h : env.raftVerifyLeaderErr.isSome = true)
    (hreq : env.http.newRequestErr = none) :
    (SyncManager.deleteConfig env s token pid).events =
      [Event.forward
        { method := "DELETE",
          url := "http://" ++ hostOf env.raftLeader ++ ":4122/v1/api/config/" ++ pid,
          authHeader := "Bearer " ++ token,
          body := none }] ∧
    (env.http.doErr = none → env.http.decodeErr = none → env.http.status = 404 →
      env.http.body.lookup "error" = some (JVal.str "not found") →
      (SyncManager.deleteConfig env s token pid).ret = GoResult.err "not found") := by
  constructor
  · cases hdo : env.http.doErr with
    | some e => simp [SyncManager.deleteConfig, h, makeRequest, hreq, hdo]
    | none =>
      cases hdec : env.http.decodeErr with
      | some e => simp [SyncManager.deleteConfig, h, makeRequest, hreq, hdo, hdec]
      | none =>
        by_cases hst : env.http.status = 200
        · simp [SyncManager.deleteConfig, h, makeRequest, hreq, hdo, hdec, hst]
        · cases hlook : env.http.body.lookup "error" with
          | none => simp [SyncManager.deleteConfig, h, makeRequest, hreq, hdo, hdec, hst, hlook]
          | some v =>
            cases v <;>
              simp [SyncManager.deleteConfig, h, makeRequest, hreq, hdo, hdec, hst, hlook]
  · intro hdo hdec hst hlook
    simp [SyncManager.deleteConfig, h, makeRequest, hreq, hdo, hdec, hst, hlook]

/-- Concrete witness for claim C4: leader address `10.0.0.5:7000`, project
`proj1`, and a 404 `not found` response. -/
theorem deleteConfig_forward_request_shape_witness :
    hostOf "10.0.0.5:7000" = "10.0.0.5" ∧
    (SyncManager.deleteConfig envNL smW "tok" "proj1").events =
      [Event.forward
        { method := "DELETE",
          url := "http://10.0.0.5:4122/v1/api/config/proj1",
          authHeader := "Bearer tok",
          body := none }] ∧
    (SyncManager.deleteConfig envNL smW "tok" "proj1").ret =
      GoResult.err "not found" := by
  have h := deleteConfig_forward_request_shape envNL smW "tok" "proj1" rfl rfl
  refine ⟨by decide, ?_, h.2 rfl rfl rfl (by decide)⟩
  rw [h.1]
  decide

/-- A leader environment whose command marshaller fails on every command. -/
def envMF : Env :=
  { raftVerifyLeaderErr := none, raftLeader := "", raftApplyErr := none,
    http := {}, marshalCmdErr := fun _ => some "marshal failure" }

/-- Counterexample to claim C5 as stated: on a leader whose RaftCommand
serialization errors, `setStaticConfig` still submits the nil byte slice
to Apply and returns Apply's success — the serialization error is
silently discarded, not propagated. -/
theorem marshal_error_swallowed_cex :
    envMF.marshalCmdErr
      { kind := RaftCommandKind.setStatic, static := some ⟨7⟩ } =
        some "marshal failure" ∧
    (SyncManager.setStaticConfig envMF smW "tok" ⟨7⟩).events =
      [Event.apply Bytes.nil 0] ∧
    (SyncManager.setStaticConfig envMF smW "tok" ⟨7⟩).ret = GoResult.ok := by
  refine ⟨rfl, ?_, ?_⟩ <;> rfl

/-- Claim C5 (amended): on a leader, the error of the one Apply call is
propagated to the caller by every operation; the RaftCommand serialization
error is checked and propagated only by `setProjectConfig` (before any
Apply) — the five other operations discard it and submit the nil byte
slice to Apply. -/
theorem apply_error_propagation (env : Env) (s : SyncManager) (token : String)
    (st : Static) (op : OperationConfig) (proj : Project) (dep : Deploy)
    (pid : String) (e : GoError)
    (hl : env.raftVerifyLeaderErr = none) :
    (env.raftApplyErr = some e →
      (SyncManager.setStaticConfig env s token st).ret = GoResult.err e ∧
      (SyncManager.addInternalRoutes env s token st).ret = GoResult.err e ∧
      (SyncManager.setOperationModeConfig env s token op).ret = GoResult.err e ∧
      (SyncManager.setDeployConfig env s token dep).ret = GoResult.err e ∧
      (SyncManager.deleteConfig env s token pid).ret = GoResult.err e ∧
      (env.validate s.projectConfig proj = true →
        env.marshalCmdErr
          { kind := RaftCommandKind.set, project := some proj, id := proj.id } = none →
        (SyncManager.setProjectConfig env s token proj).ret = GoResult.err e)) ∧
    (env.validate s.projectConfig proj = true →
      env.marshalCmdErr
        { kind := RaftCommandKind.set, project := some proj, id := proj.id } = some e →
      SyncManager.setProjectConfig env s token proj =
        { events := [Event.validate s.projectConfig proj],
          newConfig := s.projectConfig, ret := GoResult.err e }) ∧
    (env.marshalCmdErr { kind := RaftCommandKind.setStatic, static := some st } =
        some e →
      (SyncManager.setStaticConfig env s token st).events = [Event.apply Bytes.nil 0] ∧
      (SyncManager.setStaticConfig env s token st).ret = goResultOf env.raftApplyErr) ∧
    (env.marshalCmdErr
        { kind := RaftCommandKind.addInternalRouteOperation, static := some st } =
        some e →
      (SyncManager.addInternalRoutes env s token st).events = [Event.apply Bytes.nil 0] ∧
      (SyncManager.addInternalRoutes env s token st).ret = goResultOf env.raftApplyErr) ∧
    (env.marshalCmdErr { kind := RaftCommandKind.setOperation, operation := some op } =
        some e →
      (SyncManager.setOperationModeConfig env s token op).events =
        [Event.apply Bytes.nil 0] ∧
      (SyncManager.setOperationModeConfig env s token op).ret =
        goResultOf env.raftApplyErr) ∧
    (env.marshalCmdErr { kind := RaftCommandKind.setDeploy, deploy := some dep } =
        some e →
      (SyncManager.setDeployConfig env s token dep).events = [Event.apply Bytes.nil 0] ∧
      (SyncManager.setDeployConfig env s token dep).ret = goResultOf env.raftApplyErr) ∧
    (env.marshalCmdErr { kind := RaftCommandKind.delete, id := pid } = some e →
      (SyncManager.deleteConfig env s token pid).events = [Event.apply Bytes.nil 0] ∧
      (SyncManager.deleteConfig env s token pid).ret = goResultOf env.raftApplyErr) := by
  have hb : env.raftVerifyLeaderErr.isSome = false := by rw [hl]; rfl
  refine ⟨?_, ?_, ?_, ?_, ?_, ?_, ?_⟩
  · intro ha
    refine ⟨?_, ?_, ?_, ?_, ?_, ?_⟩ <;>
      try simp [SyncManager.setStaticConfig, SyncManager.addInternalRoutes,
        SyncManager.setOperationModeConfig, SyncManager.setDeployConfig,
        SyncManager.deleteConfig, hb, ha, goResultOf]
    intro hv hmc
    simp [SyncManager.setProjectConfig, hb, hv, hmc, jsonMarshalCmd, ha, goResultOf]
  · intro hv hmc
    simp [SyncManager.setProjectConfig, hb, hv, hmc, jsonMarshalCmd]
  · intro hmc
    simp [SyncManager.setStaticConfig, hb, hmc, jsonMarshalCmd]
  · intro hmc
    simp [SyncManager.addInternalRoutes, hb, hmc, jsonMarshalCmd]
  · intro hmc
    simp [SyncManager.setOperationModeConfig, hb, hmc, jsonMarshalCmd]
  · intro hmc
    simp [SyncManager.setDeployConfig, hb, hmc, jsonMarshalCmd]
  · intro hmc
    simp [SyncManager.deleteConfig, hb, hmc, jsonMarshalCmd]

/-- A leader environment whose Apply call fails. -/
def envAF : Env :=
  { raftVerifyLeaderErr := none, raftLeader := "", raftApplyErr := some "apply failed",
    http := {} }

/-- Concrete witness for claim C5 (amended): a failing Apply is propagated
by `setStaticConfig`, a failing marshal is propagated by
`setProjectConfig`, and under a failing marshal each of the five other
operations submits the nil byte slice to Apply and still returns ok. -/
theorem apply_error_propagation_witness :
    (SyncManager.setStaticConfig envAF smW "tok" ⟨7⟩).ret =
      GoResult.err "apply failed" ∧
    SyncManager.setProjectConfig envMF smW "tok" { id := "proj1", val := 2 } =
      { events := [Event.validate smW.projectConfig { id := "proj1", val := 2 }],
        newConfig := smW.projectConfig, ret := GoResult.err "marshal failure" } ∧
    ((SyncManager.setStaticConfig envMF smW "tok" ⟨7⟩).events =
        [Event.apply Bytes.nil 0] ∧
      (SyncManager.setStaticConfig envMF smW "tok" ⟨7⟩).ret = GoResult.ok) ∧
    ((SyncManager.addInternalRoutes envMF smW "tok" ⟨7⟩).events =
        [Event.apply Bytes.nil 0] ∧
      (SyncManager.addInternalRoutes envMF smW "tok" ⟨7⟩).ret = GoResult.ok) ∧
    ((SyncManager.setOperationModeConfig envMF smW "tok" ⟨3⟩).events =
        [Event.apply Bytes.nil 0] ∧
      (SyncManager.setOperationModeConfig envMF smW "tok" ⟨3⟩).ret = GoResult.ok) ∧
    ((SyncManager.setDeployConfig envMF smW "tok" ⟨9⟩).events =
        [Event.apply Bytes.nil 0] ∧
      (SyncManager.setDeployConfig envMF smW "tok" ⟨9⟩).ret = GoResult.ok) ∧
    ((SyncManager.deleteConfig envMF smW "tok" "proj1").events =
        [Event.apply Bytes.nil 0] ∧
      (SyncManager.deleteConfig envMF smW "tok" "proj1").ret = GoResult.ok) :=
  ⟨((apply_error_propagation envAF smW "tok" ⟨7⟩ ⟨3⟩ { id := "proj1", val := 2 } ⟨9⟩
      "proj1" "apply failed" rfl).1 rfl).1,
    (apply_error_propagation envMF smW "tok" ⟨7⟩ ⟨3⟩ { id := "proj1", val := 2 } ⟨9⟩
      "proj1" "marshal failure" rfl).2.1 rfl rfl,
    (apply_error_propagation envMF smW "tok" ⟨7⟩ ⟨3⟩ { id := "proj1", val := 2 } ⟨9⟩
      "proj1" "marshal failure" rfl).2.2.1 rfl,
    (apply_error_propagation envMF smW "tok" ⟨7⟩ ⟨3⟩ { id := "proj1", val := 2 } ⟨9⟩
      "proj1" "marshal failure" rfl).2.2.2.1 rfl,
    (apply_error_propagation envMF smW "tok" ⟨7⟩ ⟨3⟩ { id := "proj1", val := 2 } ⟨9⟩
      "proj1" "marshal failure" rfl).2.2.2.2.1 rfl,
    (apply_error_propagation envMF smW "tok" ⟨7⟩ ⟨3⟩ { id := "proj1", val := 2 } ⟨9⟩
      "proj1" "marshal failure" rfl).2.2.2.2.2.1 rfl,
    (apply_error_propagation envMF smW "tok" ⟨7⟩ ⟨3⟩ { id := "proj1", val := 2 } ⟨9⟩
      "proj1" "marshal failure" rfl).2.2.2.2.2.2 rfl⟩

/-- Claim C6: `getConfig` returns a project of the document whose
identifier equals the requested one exactly when such a project exists,
and the fixed not-found error otherwise; being a pure function of the
document, two calls with no intervening mutation return identical
results. -/
theorem getConfig_lookup_spec (s : SyncManager) (pid : String) :
    (∀ p, SyncManager.getConfig s pid = Except.ok p →
      p ∈ s.projectConfig.projects ∧ p.id = pid) ∧
    ((∃ p ∈ s.projectConfig.projects, p.id = pid) →
      ∃ p, SyncManager.getConfig s pid = Except.ok p ∧ p.id = pid) ∧
    ((∀ p ∈ s.projectConfig.projects, p.id ≠ pid) →
      SyncManager.getConfig s pid =
        Except.error "Given project is not present in state") ∧
    SyncManager.getConfig s pid = SyncManager.getConfig s pid := by
  refine ⟨?_, ?_, ?_, rfl⟩
  · intro p hp
    unfold SyncManager.getConfig at hp
    cases hfind : s.projectConfig.projects.find? (fun q => pid == q.id) with
    | none => rw [hfind] at hp; cases hp
    | some q =>
      rw [hfind] at hp
      cases hp
      refine ⟨List.mem_of_find?_eq_some hfind, ?_⟩
      have := List.find?_some hfind
      simp at this
      exact this.symm
  · rintro ⟨p, hmem, hid⟩
    have hsome : (s.projectConfig.projects.find? (fun q => pid == q.id)).isSome := by
      rw [List.find?_isSome]
      exact ⟨p, hmem, by simp [hid]⟩
    obtain ⟨q, hq⟩ := Option.isSome_iff_exists.mp hsome
    refine ⟨q, ?_, ?_⟩
    · unfold SyncManager.getConfig
      rw [hq]
    · have := List.find?_some hq
      simp at this
      exact this.symm
  · intro hall
    have hnone : s.projectConfig.projects.find? (fun q => pid == q.id) = none := by
      rw [List.find?_eq_none]
      intro q hqmem
      simp
      intro heq
      exact absurd heq.symm (hall q hqmem)
    unfold SyncManager.getConfig
    rw [hnone]

/-- Concrete witness for claim C6: a present and an absent identifier. -/
theorem getConfig_lookup_spec_witness :
    (∃ p, SyncManager.getConfig smW "proj1" = Except.ok p ∧ p.id = "proj1") ∧
    SyncManager.getConfig smW "nope" =
      Except.error "Given project is not present in state" :=
  ⟨(getConfig_lookup_spec smW "proj1").2.1 ⟨{ id := "proj1", val := 1 }, by decide, rfl⟩,
    (getConfig_lookup_spec smW "nope").2.2.1 (by decide)⟩

/-- Two suffixes of the same length of the same list coincide, so a path
ending in `.json` does not end in `.yaml`. -/
theorem suffix_json_not_yaml (l : List Char) (h : List.isSuffixOf ".json".data l = true) :
    List.isSuffixOf ".yaml".data l = false := by
  by_contra hcon
  rw [Bool.not_eq_false] at hcon
  have h1 := List.suffix_iff_eq_drop.mp (List.isSuffixOf_iff_suffix.mp h)
  have h2 := List.suffix_iff_eq_drop.mp (List.isSuffixOf_iff_suffix.mp hcon)
  have hl1 : (".json".data : List Char).length = 5 := by decide
  have hl2 : (".yaml".data : List Char).length = 5 := by decide
  rw [hl1] at h1
  rw [hl2] at h2
  have hcontra : (".json".data : List Char) = ".yaml".data := by rw [h1, h2]
  exact absurd hcontra (by decide)

/-- Claim C7: `storeConfigToFile` serializes with the YAML encoder for
paths ending in `.yaml` and with the JSON encoder for paths ending in
`.json`, writing the buffer with permission `0644`; any other suffix
yields the descriptive invalid-file-type error naming the path, and no
file is written. -/
theorem storeConfigToFile_extension_dispatch (env : StoreEnv) (conf : Config)
    (path : String)
    (hy : env.yamlMarshalErr = none) (hj : env.jsonMarshalErr = none)
    (hw : env.writeErr = none) :
    (goHasSuffix path ".yaml" = true →
      storeConfigToFile env conf path =
        { written := [(path, SerializedConfig.yamlBytes (encodeYaml conf), 0o644)],
          ret := GoResult.ok }) ∧
    (goHasSuffix path ".json" = true →
      storeConfigToFile env conf path =
        { written := [(path, SerializedConfig.jsonBytes (encodeJson conf), 0o644)],
          ret := GoResult.ok }) ∧
    (goHasSuffix path ".yaml" = false → goHasSuffix path ".json" = false →
      storeConfigToFile env conf path =
        { written := [],
          ret := GoResult.err
            ("Invalid config file type (" ++ path ++ ") provided") }) := by
  refine ⟨?_, ?_, ?_⟩
  · intro hyaml
    simp [storeConfigToFile, hyaml, hy, hw]
  · intro hjson
    have hyaml : goHasSuffix path ".yaml" = false :=
      suffix_json_not_yaml path.data hjson
    simp [storeConfigToFile, hyaml, hjson, hj, hw]
  · intro hyaml hjson
    simp [storeConfigToFile, hyaml, hjson]

/-- The default external behaviour for `storeConfigToFile`: neither
marshaller nor the file write errors. -/
def storeEnvW : StoreEnv := {}

/-- Concrete witness for claim C7: paths `conf.yaml`, `conf.json` and
`out.txt`. -/
theorem storeConfigToFile_extension_dispatch_witness :
    storeConfigToFile storeEnvW cfgW "conf.yaml" =
      { written := [("conf.yaml", SerializedConfig.yamlBytes (encodeYaml cfgW), 0o644)],
        ret := GoResult.ok } ∧
    storeConfigToFile storeEnvW cfgW "conf.json" =
      { written := [("conf.json", SerializedConfig.jsonBytes (encodeJson cfgW), 0o644)],
        ret := GoResult.ok } ∧
    storeConfigToFile storeEnvW cfgW "out.txt" =
      { written := [],
        ret := GoResult.err "Invalid config file type (out.txt) provided" } :=
  ⟨(storeConfigToFile_extension_dispatch storeEnvW cfgW "conf.yaml" rfl rfl rfl).1
      (by decide),
    (storeConfigToFile_extension_dispatch storeEnvW cfgW "conf.json" rfl rfl rfl).2.1
      (by decide),
    (storeConfigToFile_extension_dispatch storeEnvW cfgW "out.txt" rfl rfl rfl).2.2
      (by decide) (by decide)⟩

/-- Reading back an encoded run of project entries consumes exactly that
run and returns the entries. -/
theorem decodeProjectsYaml_encode (ps : List Project) (rest : List YTok) :
    decodeProjectsYaml ps.length (encodeProjectsYaml ps ++ rest) = some (ps, rest) := by
  induction ps with
  | nil => rfl
  | cons p ps ih => simp [encodeProjectsYaml, decodeProjectsYaml, ih]

/-- Claim C8: serializing a configuration document with the encoding
`storeConfigToFile` uses for `.json` paths and then deserializing yields
the original document, and symmetrically for the `.yaml` encoding. -/
theorem encode_decode_roundtrip (c : Config) :
    decodeJson (encodeJson c) = some c ∧ decodeYaml (encodeYaml c) = some c := by
  obtain ⟨ps, ⟨sv⟩, ⟨dv⟩, ⟨ov⟩⟩ := c
  constructor
  · have hcomp : decodeProjectJson ∘ encodeProjectJson = id := funext fun p => rfl
    simp [encodeJson, decodeJson, List.map_map, hcomp]
  · have h := decodeProjectsYaml_encode ps []
    rw [List.append_nil] at h
    simp [encodeYaml, decodeYaml, h]

/-- A transport environment answering 500 with an empty JSON object. -/
def http500 : HttpEnv := { status := 500 }

/-- A transport environment answering 500 with a non-string `error`
field. -/
def http500num : HttpEnv := { status := 500, body := [("error", JVal.num 42)] }

/-- Counterexample to claim C9 as stated: a non-200 response whose body
lacks a string `error` field makes the type assertion in `makeRequest`
fail (a runtime panic), instead of producing an error message from the
body — both for a missing field and for a non-string one. -/
theorem makeRequest_missing_error_field_cex :
    http500.status ≠ 200 ∧
    (makeRequest http500 "POST" "tok"
      "http://10.0.0.5:4122/v1/api/config/static" none).2 = GoResult.panicked ∧
    http500num.status ≠ 200 ∧
    (makeRequest http500num "POST" "tok"
      "http://10.0.0.5:4122/v1/api/config/static" none).2 = GoResult.panicked := by
  exact ⟨by decide, rfl, by decide, rfl⟩

/-- Claim C9 (amended): for every non-200 response whose decoded body does
carry a string `error` field, `makeRequest` returns an error whose message
is exactly that field's value; when the field is absent or not a string,
the unchecked type assertion fails and the call panics instead of
returning. -/
theorem makeRequest_non200_error_extraction (env : HttpEnv)
    (method token url : String) (data : Option Bytes)
    (hne : env.newRequestErr = none) (hdo : env.doErr = none)
    (hdec : env.decodeErr = none) (hst : env.status ≠ 200) :
    (∀ s, env.body.lookup "error" = some (JVal.str s) →
      (makeRequest env method token url data).2 = GoResult.err s) ∧
    ((∀ s, env.body.lookup "error" ≠ some (JVal.str s)) →
      (makeRequest env method token url data).2 = GoResult.panicked) := by
  constructor
  · intro s hlook
    simp [makeRequest, hne, hdo, hdec, hst, hlook]
  · intro hno
    cases hlook : env.body.lookup "error" with
    | none => simp [makeRequest, hne, hdo, hdec, hst, hlook]
    | some v =>
      cases v with
      | str s => exact absurd hlook (hno s)
      | num n => simp [makeRequest, hne, hdo, hdec, hst, hlook]
      | boolean b => simp [makeRequest, hne, hdo, hdec, hst, hlook]
      | nul => simp [makeRequest, hne, hdo, hdec, hst, hlook]

/-- Concrete witness for claim C9 (amended): a 404 with a string `error`
field produces that message; a 500 with a numeric `error` field panics. -/
theorem makeRequest_non200_error_extraction_witness :
    (makeRequest envNL.http "DELETE" "tok"
      "http://10.0.0.5:4122/v1/api/config/proj1" none).2 =
      GoResult.err "not found" ∧
    (makeRequest http500num "POST" "tok"
      "http://10.0.0.5:4122/v1/api/config/static" none).2 = GoResult.panicked :=
  ⟨(makeRequest_non200_error_extraction envNL.http "DELETE" "tok"
      "http://10.0.0.5:4122/v1/api/config/proj1" none rfl rfl rfl (by decide)).1
      "not found" (by decide),
    (makeRequest_non200_error_extraction http500num "POST" "tok"
      "http://10.0.0.5:4122/v1/api/config/static" none rfl rfl rfl (by decide)).2
      (by intro s h; simp [http500num, List.lookup] at h)⟩

/-- Claim C10: an HTTP 200 response whose body decodes as a JSON object
always yields success from `makeRequest`, whatever the body holds — an
`error` field is ignored on a 200 status. -/
theorem makeRequest_200_ignores_error_field (env : HttpEnv)
    (method token url : String) (data : Option Bytes)
    (hne : env.newRequestErr = none) (hdo : env.doErr = none)
    (hdec : env.decodeErr = none) (hst : env.status = 200) :
    (makeRequest env method token url data).2 = GoResult.ok := by
  simp [makeRequest, hne, hdo, hdec, hst]

/-- A transport environment answering 200 with a non-empty `error` field
in the body. -/
def http200err : HttpEnv := { status := 200, body := [("error", JVal.str "boom")] }

/-- Concrete witness for claim C10: a 200 carrying `error` = `boom` still
reports success. -/
theorem makeRequest_200_ignores_error_field_witness :
    http200err.body = [("error", JVal.str "boom")] ∧
    (makeRequest http200err "POST" "tok"
      "http://10.0.0.5:4122/v1/api/config/static" none).2 = GoResult.ok :=
  ⟨rfl,
    makeRequest_200_ignores_error_field http200err "POST" "tok"
      "http://10.0.0.5:4122/v1/api/config/static" none rfl rfl rfl rfl⟩
